import Mathlib

/-!
Verification development for the Breakpad basic source-line resolver core:
the symbol-file record parsers (`SymbolParseHelper`), the in-memory module
data model, the address-indexed query engine (`LookupAddress`,
`FindWindowsFrameInfo`, `FindCFIFrameInfo`), the postfix-expression and CFI
rule evaluators (`CFIFrameInfo::FindCallerRegs`), and the module store
(`LoadModule` / `HasModule` / `IsModuleCorrupt` / `FillSourceLineInfo`).

The C++ implementation of the resolver core is not part of the sources
available here (only its unit test, `basic_source_line_resolver_unittest.cc`,
is); every definition below is therefore modelled from the specification,
kept consistent with the behaviour the unit test demands.  Machine words are
modelled as `Nat` with explicit reduction modulo `2 ^ 32` where the
evaluator's 32-bit arithmetic wraps; fallible operations return `Option`.
-/

namespace Breakpad

/-! ## Tokenizer (spec 4.A)

A line is split on runs of spaces; numeric fields use strict parsers:
unsigned 64-bit hex (no prefix), signed 64-bit decimal, both range checked.
Any out-of-range, empty or non-digit field fails.
-/

/-- Split a list of characters on runs of spaces, producing the non-empty
maximal space-free runs (the behaviour of repeated `strtok` on `" "`). -/
def splitWordsAux (cs : List Char) (cur : List Char) : List (List Char) :=
  match cs with
  | [] => if cur.isEmpty then [] else [cur.reverse]
  | c :: rest =>
      if c = ' ' then
        if cur.isEmpty then splitWordsAux rest []
        else cur.reverse :: splitWordsAux rest []
      else splitWordsAux rest (c :: cur)

/-- Tokenize a symbol-file line: split on runs of spaces. -/
def words (s : String) : List String :=
  (splitWordsAux s.data []).map List.asString

/-- Numeric value of a decimal digit character, `none` on a non-digit. -/
def digitVal (c : Char) : Option Nat :=
  if '0' ≤ c ∧ c ≤ '9' then some (c.toNat - 48) else none

/-- Numeric value of a hexadecimal digit (lowercase or uppercase letters). -/
def hexDigitVal (c : Char) : Option Nat :=
  if '0' ≤ c ∧ c ≤ '9' then some (c.toNat - 48)
  else if 'a' ≤ c ∧ c ≤ 'f' then some (c.toNat - 97 + 10)
  else if 'A' ≤ c ∧ c ≤ 'F' then some (c.toNat - 65 + 10)
  else none

/-- Accumulate decimal digits; fails on the first non-digit character. -/
def decValueAux : Nat → List Char → Option Nat
  | acc, [] => some acc
  | acc, c :: cs =>
      match digitVal c with
      | some d => decValueAux (acc * 10 + d) cs
      | none => none

/-- Value of a non-empty all-decimal-digit token; `none` otherwise. -/
def decValue (cs : List Char) : Option Nat :=
  match cs with
  | [] => none
  | _ => decValueAux 0 cs

/-- Accumulate hexadecimal digits; fails on the first non-hex character. -/
def hexValueAux : Nat → List Char → Option Nat
  | acc, [] => some acc
  | acc, c :: cs =>
      match hexDigitVal c with
      | some d => hexValueAux (acc * 16 + d) cs
      | none => none

/-- Value of a non-empty all-hex-digit token; `none` otherwise. -/
def hexValue (cs : List Char) : Option Nat :=
  match cs with
  | [] => none
  | _ => hexValueAux 0 cs

/-- Largest value a platform signed long holds (64-bit long). -/
def longMax : Int := 2 ^ 63 - 1

/-- Modelled from the spec (4.A): the signed 64-bit decimal field parser
(`strtol` with a full-token validity check).  Rejects an empty token, any
non-digit character, and values outside the signed-long range; like the
source helpers it also rejects the overflow sentinel `LONG_MAX` itself. -/
def parseLongChars : List Char → Option Int
  | [] => none
  | c :: rest =>
      if c = '-' then
        match decValue rest with
        | some n => if (n : Int) ≤ 2 ^ 63 then some (-(n : Int)) else none
        | none => none
      else
        match decValue (c :: rest) with
        | some n => if (n : Int) < longMax then some (n : Int) else none
        | none => none

/-- The decimal field parser applied to a whole token. -/
def parseLong (tok : String) : Option Int :=
  parseLongChars tok.data

/-- Modelled from the spec (4.A): the signed hexadecimal field parser used
for the `param_size` fields (`strtol` base 16; the accept vector
`FUNC a1 a2 a3 fn` yields parameter size `0xa3`).  Range checked like
`parseLong`. -/
def parseLongHex (tok : String) : Option Int :=
  match tok.data with
  | '-' :: rest =>
      match hexValue rest with
      | some n => if (n : Int) ≤ 2 ^ 63 then some (-(n : Int)) else none
      | none => none
  | cs =>
      match hexValue cs with
      | some n => if (n : Int) < longMax then some (n : Int) else none
      | none => none

/-- Modelled from the spec (4.A): the unsigned 64-bit hexadecimal field
parser (`strtoull` base 16 with a full-token validity check).  Rejects an
empty token, any non-hex character, and values that do not fit in 64 bits
(the overflow sentinel `ULLONG_MAX` is likewise rejected). -/
def parseHex64 (tok : String) : Option Nat :=
  match hexValue tok.data with
  | some n => if n < 2 ^ 64 - 1 then some n else none
  | none => none

/-! ## Record parsers (spec 4.B, `SymbolParseHelper`)

Each parser consumes a whole symbol-file line.  The trailing name field is
the remaining tokens re-joined; it must be non-empty.
-/

/-- Join the trailing name tokens of a record back into the name field;
fails when no token is left (a record must carry a non-empty name). -/
def joinName (toks : List String) : Option String :=
  match toks with
  | [] => none
  | _ => some (String.intercalate " " toks)

/-- Result of parsing a `FILE <id> <path>` line. -/
structure FileLine where
  index : Int
  filename : String
  deriving DecidableEq, Repr

/-- Modelled from the spec (4.B): `ParseFile`.  `FILE <id> <path>`, the id a
non-negative signed decimal, the path the rest of the line. -/
def parseFile (line : String) : Option FileLine :=
  match words line with
  | "FILE" :: idTok :: rest =>
      match parseLong idTok with
      | some i =>
          if i < 0 then none
          else match joinName rest with
            | some nm => some ⟨i, nm⟩
            | none => none
      | none => none
  | _ => none

/-- Result of parsing a `FUNC` line. -/
structure FuncLine where
  multiple : Bool
  address : Nat
  size : Nat
  paramSize : Int
  name : String
  deriving DecidableEq, Repr

/-- Modelled from the spec (4.B): `ParseFunction`.
`FUNC [m ]?<addr-hex> <size-hex> <param-dec> <name>`; the parameter size
must be non-negative. -/
def parseFunction (line : String) : Option FuncLine :=
  match words line with
  | "FUNC" :: rest =>
      let (multiple, rest) :=
        match rest with
        | "m" :: r => (true, r)
        | r => (false, r)
      match rest with
      | addrTok :: sizeTok :: paramTok :: nameToks =>
          match parseHex64 addrTok, parseHex64 sizeTok, parseLongHex paramTok with
          | some a, some s, some p =>
              if p < 0 then none
              else match joinName nameToks with
                | some nm => some ⟨multiple, a, s, p, nm⟩
                | none => none
          | _, _, _ => none
      | _ => none
  | _ => none

/-- Result of parsing a `PUBLIC` line. -/
structure PublicLine where
  multiple : Bool
  address : Nat
  paramSize : Int
  name : String
  deriving DecidableEq, Repr

/-- Modelled from the spec (4.B): `ParsePublicSymbol`.
`PUBLIC [m ]?<addr-hex> <param-dec> <name>`; the parameter size must be
non-negative. -/
def parsePublicSymbol (line : String) : Option PublicLine :=
  match words line with
  | "PUBLIC" :: rest =>
      let (multiple, rest) :=
        match rest with
        | "m" :: r => (true, r)
        | r => (false, r)
      match rest with
      | addrTok :: paramTok :: nameToks =>
          match parseHex64 addrTok, parseLongHex paramTok with
          | some a, some p =>
              if p < 0 then none
              else match joinName nameToks with
                | some nm => some ⟨multiple, a, p, nm⟩
                | none => none
          | _, _ => none
      | _ => none
  | _ => none

/-- Result of parsing a source line record (`<addr> <size> <line> <file>`). -/
structure LineLine where
  address : Nat
  size : Nat
  lineNumber : Int
  sourceFile : Int
  deriving DecidableEq, Repr

/-- Modelled from the spec (4.B): `ParseLine`.  A line record under the
preceding `FUNC`: hex address and size, then decimal line number (must be
non-negative) and decimal file id.  Extra trailing tokens are tolerated. -/
def parseLine (line : String) : Option LineLine :=
  match words line with
  | addrTok :: sizeTok :: lineTok :: fileTok :: _ =>
      match parseHex64 addrTok, parseHex64 sizeTok,
            parseLong lineTok, parseLong fileTok with
      | some a, some s, some l, some f =>
          if l < 0 then none else some ⟨a, s, l, f⟩
      | _, _, _, _ => none
  | _ => none

/-- Result of parsing an `INLINE_ORIGIN` line. -/
structure InlineOriginLine where
  hasFileId : Bool
  originId : Int
  fileId : Int
  name : String
  deriving DecidableEq, Repr

/-- Modelled from the spec (4.B): `ParseInlineOrigin`.  The old format is
`INLINE_ORIGIN <origin_id> <file_id> <name>` (file id may be `-1` for
artificial functions); the new format drops the file id.  Disambiguation:
when the token after the origin id parses as an integer the record is taken
to be old-format, and then a name must still follow. -/
def parseInlineOrigin (line : String) : Option InlineOriginLine :=
  match words line with
  | "INLINE_ORIGIN" :: originTok :: rest =>
      match parseLong originTok with
      | some o =>
          if o < 0 then none
          else
            match rest with
            | [] => none
            | fidTok :: rest2 =>
                match parseLong fidTok with
                | some fid =>
                    -- old format: a name must follow the file id
                    match joinName rest2 with
                    | some nm => some ⟨true, o, fid, nm⟩
                    | none => none
                | none =>
                    match joinName rest with
                    | some nm => some ⟨false, o, 0, nm⟩
                    | none => none
      | none => none
  | _ => none

/-- Result of parsing an `INLINE` line. -/
structure InlineLine where
  hasCallSiteFileId : Bool
  nestLevel : Int
  callSiteLine : Int
  callSiteFileId : Int
  originId : Int
  ranges : List (Nat × Nat)
  deriving DecidableEq, Repr

/-- Parse the trailing `(<addr-hex> <size-hex>)+` pairs of an INLINE line. -/
def parseRangePairs : List String → Option (List (Nat × Nat))
  | [] => some []
  | [_] => none
  | a :: s :: rest =>
      match parseHex64 a, parseHex64 s with
      | some av, some sv =>
          match parseRangePairs rest with
          | some l => some ((av, sv) :: l)
          | none => none
      | _, _ => none

/-- The `INLINE` format disambiguator: an even number of tokens after the
`INLINE` keyword means the new format (with a call-site file id), an odd
number the old one. -/
def newFormatToks (toks : List String) : Bool :=
  toks.length % 2 == 0

/-- Modelled from the spec (4.B): `ParseInline`.  Old format
`INLINE <nest> <call_site_line> <origin_id> (<addr> <size>)+`, new format
has an extra `<call_site_file_id>` before the origin id; `newFormatToks`
disambiguates.  At least one range pair is required (at least five
tokens), and the nest level, call-site line and origin id must be
non-negative. -/
def parseInlineToks (toks : List String) : Option InlineLine :=
  if toks.length < 5 then none
  else
    match toks with
    | nestTok :: lineTok :: rest =>
        match parseLong nestTok, parseLong lineTok with
        | some nest, some csLine =>
            if nest < 0 ∨ csLine < 0 then none
            else
              match (if newFormatToks toks then
                  match rest with
                  | fidTok :: originTok :: rangeToks =>
                      match parseLong fidTok, parseLong originTok with
                      | some fid, some o => some (fid, o, rangeToks)
                      | _, _ => none
                  | _ => none
                else
                  match rest with
                  | originTok :: rangeToks =>
                      match parseLong originTok with
                      | some o => some (0, o, rangeToks)
                      | none => none
                  | _ => none) with
              | some (fid, o, rangeToks) =>
                  if o < 0 then none
                  else
                    match parseRangePairs rangeToks with
                    | some rs =>
                        if rs.isEmpty then none
                        else some ⟨newFormatToks toks, nest, csLine, fid, o, rs⟩
                    | none => none
              | none => none
        | _, _ => none
    | _ => none

/-- Modelled from the spec (4.B): `ParseInline` over a whole line — the
record's tokens after the `INLINE` keyword go to `parseInlineToks`. -/
def parseInline (line : String) : Option InlineLine :=
  match words line with
  | "INLINE" :: toks => parseInlineToks toks
  | _ => none

/-! ## Data model (spec 3)

The in-memory `Module` built from a symbol file, and the `StackFrame`
record that queries fill in.  Addresses and sizes are `Nat` (64-bit values
in the source; no arithmetic here overflows 64 bits).
-/

/-- Trust tag of a stack frame; inline frames are tagged
`FRAME_TRUST_INLINE` for downstream logging. -/
inductive FrameTrust where
  | trustNone
  | trustInline
  deriving DecidableEq, Repr

/-- A source line record `[address, address+size) → (file, line)` owned by a
function. -/
structure LineRecord where
  address : Nat
  size : Nat
  line : Int
  fileId : Int
  deriving DecidableEq, Repr

/-- An inline record: nest level, call-site line, optional call-site file
(new format only), origin id and one or more address ranges. -/
structure InlineRecord where
  nestLevel : Nat
  callSiteLine : Int
  callSiteFileId : Option Int
  originId : Int
  ranges : List (Nat × Nat)
  deriving DecidableEq, Repr

/-- A function entry: interval `[address, address+size)`, name, parameter
size, multiple flag, plus its line and inline records. -/
structure FunctionRecord where
  name : String
  address : Nat
  size : Nat
  paramSize : Int
  multiple : Bool
  lines : List LineRecord
  inlines : List InlineRecord
  deriving DecidableEq, Repr

/-- A public symbol: a point address (not interval-bearing), used as a
fallback when no function contains the instruction. -/
structure PublicRecord where
  name : String
  address : Nat
  paramSize : Int
  multiple : Bool
  deriving DecidableEq, Repr

/-- `WindowsFrameInfo::STACK_INFO_FPO`. -/
def STACK_INFO_FPO : Int := 0

/-- `WindowsFrameInfo::STACK_INFO_FRAME_DATA`. -/
def STACK_INFO_FRAME_DATA : Int := 4

/-- `WindowsFrameInfo::STACK_INFO_UNKNOWN`, the default-constructed type. -/
def STACK_INFO_UNKNOWN : Int := -1

/-- The payload of a `STACK WIN` record (or a synthesized parameter-size
only record, whose fields keep these defaults). -/
structure WindowsFrameInfo where
  infoType : Int := STACK_INFO_UNKNOWN
  prologSize : Nat := 0
  paramSize : Int := 0
  allocatesBasePointer : Bool := false
  programString : String := ""
  deriving DecidableEq, Repr

/-- A `STACK WIN` record: the interval it covers and its payload. -/
structure WinRecord where
  address : Nat
  size : Nat
  info : WindowsFrameInfo
  deriving DecidableEq, Repr

/-- A `STACK CFI INIT` record: covered interval and initial rule string. -/
structure CfiInitRecord where
  address : Nat
  size : Nat
  rules : String
  deriving DecidableEq, Repr

/-- Modelled from the spec (3): the in-memory module.  Interval maps are
lists; the range maps of the source reject overlapping entries at build
time, so lookups below scan for a containing entry.  `cfiDeltas` is kept in
ascending address order (the source keeps them in a `map` keyed by
address). -/
structure Module where
  files : List (Int × String)
  inlineOrigins : List (Int × String)
  functions : List FunctionRecord
  publics : List PublicRecord
  winRecords : List WinRecord
  cfiInits : List CfiInitRecord
  cfiDeltas : List (Nat × String)
  deriving DecidableEq, Repr

/-- A stack frame as filled in by `FillSourceLineInfo`.  `module` is the
key (the module's code file) of the frame's module, `none` for a null
module pointer. -/
structure StackFrame where
  instruction : Nat
  module : Option String := none
  functionName : String := ""
  functionBase : Nat := 0
  sourceFileName : String := ""
  sourceLine : Int := 0
  sourceLineBase : Nat := 0
  isMultiple : Bool := false
  trust : FrameTrust := .trustNone
  deriving DecidableEq, Repr

/-- Membership of an address in a half-open interval `[base, base+size)`. -/
def containsRange (base size a : Nat) : Bool :=
  base ≤ a && a < base + size

/-- The entry with the greatest key `keyOf x ≤ a` (the behaviour of
`RangeMap::RetrieveNearestRange` and `AddressMap::Retrieve`). -/
def nearestLE {α : Type} (keyOf : α → Nat) : List α → Nat → Option α
  | [], _ => none
  | x :: xs, a =>
      let r := nearestLE keyOf xs a
      if keyOf x ≤ a then
        match r with
        | none => some x
        | some y => if keyOf y < keyOf x then some x else some y
      else r

/-- Look up a file id in the module's file table. -/
def fileLookup (m : Module) (fid : Int) : Option String :=
  (m.files.find? (fun p => p.1 == fid)).map (fun p => p.2)

/-- Look up an origin id in the module's inline-origin table. -/
def originLookup (m : Module) (oid : Int) : Option String :=
  (m.inlineOrigins.find? (fun p => p.1 == oid)).map (fun p => p.2)

/-! ## Query engine (spec 4.E) -/

/-- Modelled from the spec (4.E rule 1): locate the function whose interval
contains the address — retrieve the nearest function at or below it and
check containment. -/
def resolveFunction (m : Module) (a : Nat) : Option FunctionRecord :=
  match nearestLE (fun f => f.address) m.functions a with
  | some f => if containsRange f.address f.size a then some f else none
  | none => none

/-- Modelled from the spec (4.E rule 4) and the unit test: the public
symbol with the greatest address at or below the instruction, used only
when it lies above the base of the nearest function (a public entry does
not reach past a later function's start). -/
def publicFallback (m : Module) (a : Nat) : Option PublicRecord :=
  match nearestLE (fun p => p.address) m.publics a with
  | some p =>
      match nearestLE (fun f => f.address) m.functions a with
      | some f => if f.address < p.address then some p else none
      | none => some p
  | none => none

/-- The line record of `f` whose interval contains the address. -/
def lineRecordAt (f : FunctionRecord) (a : Nat) : Option LineRecord :=
  f.lines.find? (fun l => containsRange l.address l.size a)

/-- Does inline record `i` sit at nest level `lvl` with a range containing
`a`? -/
def inlineMatches (i : InlineRecord) (lvl a : Nat) : Bool :=
  i.nestLevel == lvl && i.ranges.any (fun r => containsRange r.1 r.2 a)

/-- Collect the inline records containing `a`, one per nest level starting
at level `lvl`, stopping at the first level with no match.  `fuel` bounds
the recursion (a chain is never longer than the inline list). -/
def inlineChainAux (inls : List InlineRecord) (a : Nat) : Nat → Nat → List InlineRecord
  | _, 0 => []
  | lvl, fuel + 1 =>
      match inls.find? (fun i => inlineMatches i lvl a) with
      | some i => i :: inlineChainAux inls a (lvl + 1) fuel
      | none => []

/-- Modelled from the spec (4.E rule 3): the inline chain at an address —
for each nest level `0..k` the inline whose ranges contain the address —
reported innermost-first (deepest nest level at index 0). -/
def inlineChain (f : FunctionRecord) (a : Nat) : List InlineRecord :=
  (inlineChainAux f.inlines a 0 (f.inlines.length + 1)).reverse

/-- Start of the range of `i` containing `a` (the inlined function's base). -/
def rangeBaseAt (i : InlineRecord) (a : Nat) : Nat :=
  match i.ranges.find? (fun r => containsRange r.1 r.2 a) with
  | some r => r.1
  | none => 0

/-- Build the inline frame for one inline record: a copy of the enclosing
frame carrying the origin's name, the record's own call-site line (and
call-site file when the record has one), the containing range's start as
function base, and the inline trust tag. -/
def makeInlineFrame (m : Module) (fr : StackFrame) (a : Nat) (i : InlineRecord) :
    StackFrame :=
  { fr with
      functionName := (originLookup m i.originId).getD "<name omitted>"
      sourceLine := i.callSiteLine
      sourceFileName :=
        match i.callSiteFileId with
        | some fid => (fileLookup m fid).getD fr.sourceFileName
        | none => fr.sourceFileName
      functionBase := rangeBaseAt i a
      trust := .trustInline }

/-- Reassign the `(file, line)` pairs across the chain: the outer frame
takes the outermost inline's call site, each inline frame takes the call
site of the next deeper inline, and the innermost inline frame takes the
outer frame's own line-record values. -/
def rotateCallSites (fr : StackFrame) (l : List StackFrame) :
    StackFrame × List StackFrame :=
  match l.getLast? with
  | none => (fr, [])
  | some lastF =>
      let shifted := (fr.sourceFileName, fr.sourceLine) ::
        (l.map (fun x => (x.sourceFileName, x.sourceLine))).dropLast
      let newl := (l.zip shifted).map
        (fun q => { q.1 with sourceFileName := q.2.1, sourceLine := q.2.2 })
      ({ fr with sourceFileName := lastF.sourceFileName,
                 sourceLine := lastF.sourceLine }, newl)

/-- Modelled from the spec (4.E rule 3): build the innermost-first inline
frames at an address and reattribute call-site file/line pairs across the
chain and the enclosing frame. -/
def constructInlineFrames (m : Module) (fr : StackFrame) (f : FunctionRecord)
    (a : Nat) : StackFrame × List StackFrame :=
  rotateCallSites fr ((inlineChain f a).map (makeInlineFrame m fr a))

/-- Modelled from the spec (4.E): `Module::LookupAddress`.  Fill the frame
from the containing function and its line record, and append inline frames
when a collection list is supplied (the source skips inline construction —
including the call-site reattribution — when the deque pointer is null);
with no containing function fall back to a public symbol. -/
def lookupAddress (m : Module) (frame : StackFrame)
    (inls : Option (List StackFrame)) : StackFrame × Option (List StackFrame) :=
  let a := frame.instruction
  match resolveFunction m a with
  | some f =>
      let fr1 := { frame with
        functionName := f.name, functionBase := f.address,
        isMultiple := f.multiple }
      let fr2 :=
        match lineRecordAt f a with
        | some l =>
            { fr1 with
                sourceFileName := (fileLookup m l.fileId).getD fr1.sourceFileName
                sourceLine := l.line
                sourceLineBase := l.address }
        | none => fr1
      match inls with
      | some collected =>
          let built := constructInlineFrames m fr2 f a
          (built.1, some (collected ++ built.2))
      | none => (fr2, none)
  | none =>
      match publicFallback m a with
      | some p =>
          ({ frame with
              functionName := p.name, functionBase := p.address,
              isMultiple := p.multiple }, inls)
      | none => (frame, inls)

/-- The `STACK WIN` record of the given type whose interval contains the
address. -/
def findWinRecordOfType (m : Module) (t : Int) (a : Nat) : Option WinRecord :=
  m.winRecords.find? (fun w => w.info.infoType == t && containsRange w.address w.size a)

/-- Modelled from the spec (4.E) and the unit test:
`Module::FindWindowsFrameInfo`.  Prefer a `FRAME_DATA` record containing
the address, then an `FPO` record; with neither, synthesize a
parameter-size-only record (type `STACK_INFO_UNKNOWN`) from the containing
function or, failing that, from the applicable public symbol. -/
def findWindowsFrameInfo (m : Module) (a : Nat) : Option WindowsFrameInfo :=
  match findWinRecordOfType m STACK_INFO_FRAME_DATA a with
  | some w => some w.info
  | none =>
      match findWinRecordOfType m STACK_INFO_FPO a with
      | some w => some w.info
      | none =>
          match resolveFunction m a with
          | some f => some { infoType := STACK_INFO_UNKNOWN, paramSize := f.paramSize }
          | none =>
              match publicFallback m a with
              | some p => some { infoType := STACK_INFO_UNKNOWN, paramSize := p.paramSize }
              | none => none

/-- The `STACK CFI INIT` record whose interval contains the address (the
range map holds non-overlapping intervals, so a scan finds the unique
containing entry). -/
def selectCfiInit (m : Module) (a : Nat) : Option CfiInitRecord :=
  m.cfiInits.find? (fun i => containsRange i.address i.size a)

/-! ## CFI rule sets and the postfix evaluator (spec 4.F, 4.G) -/

/-- A parsed CFI rule set (`CFIFrameInfo`): the `.cfa` rule, the `.ra`
rule, and per-register rules kept in first-insertion order (later
assignments to a register overwrite its expression in place).  Expressions
are token lists. -/
structure CFIRules where
  cfaExpr : Option (List String) := none
  raExpr : Option (List String) := none
  regRules : List (String × List String) := []
  deriving DecidableEq, Repr

/-- Does a rule-name token end in a colon? -/
def endsWithColon (s : String) : Bool :=
  match s.data.getLast? with
  | some c => c = ':'
  | none => false

/-- Strip the trailing colon from a rule-name token. -/
def dropColon (s : String) : String :=
  (s.data.dropLast).asString

/-- Bind a register rule, overwriting an existing rule for that register in
place. -/
def setRegRule (rules : List (String × List String)) (nm : String)
    (e : List String) : List (String × List String) :=
  match rules with
  | [] => [(nm, e)]
  | (n, e0) :: rest =>
      if n == nm then (nm, e) :: rest else (n, e0) :: setRegRule rest nm e

/-- Enter one parsed rule into a rule set; `.cfa` and `.ra` are kept
apart from the per-register rules. -/
def applyRule (r : CFIRules) (nm : String) (e : List String) : CFIRules :=
  if nm == ".cfa" then { r with cfaExpr := some e }
  else if nm == ".ra" then { r with raExpr := some e }
  else { r with regRules := setRegRule r.regRules nm e }

/-- Walk the tokens of a rule string: a token ending in `:` opens the rule
for that name, other tokens extend the open rule's expression; a token
before any name is a parse error. -/
def parseRuleSetAux (r : CFIRules) (cur : Option (String × List String)) :
    List String → Option CFIRules
  | [] =>
      match cur with
      | some q => some (applyRule r q.1 q.2.reverse)
      | none => some r
  | t :: ts =>
      if endsWithColon t then
        let r2 :=
          match cur with
          | some q => applyRule r q.1 q.2.reverse
          | none => r
        parseRuleSetAux r2 (some (dropColon t, [])) ts
      else
        match cur with
        | some q => parseRuleSetAux r (some (q.1, t :: q.2)) ts
        | none => none

/-- Modelled from the spec (4.B `STACK CFI` rules): `ParseCFIRuleSet`
applied on top of an existing rule set, as delta rules are. -/
def parseCFIRuleSetFrom (base : CFIRules) (s : String) : Option CFIRules :=
  parseRuleSetAux base none (words s)

/-- Modelled from the spec (4.E CFI lookup): `Module::FindCFIFrameInfo`.
Find the `STACK CFI INIT` whose range contains the address; parse its
initial rules, then apply each delta at an address between the INIT's base
and the query address, in ascending order, later rules overwriting earlier
ones (a delta that fails to parse leaves the rule set as it was). -/
def findCFIFrameInfo (m : Module) (a : Nat) : Option CFIRules :=
  match selectCfiInit m a with
  | none => none
  | some init =>
      match parseCFIRuleSetFrom {} init.rules with
      | none => none
      | some r0 =>
          let deltas := m.cfiDeltas.filter
            (fun d => init.address ≤ d.1 && d.1 ≤ a)
          some (deltas.foldl
            (fun r d =>
              match parseCFIRuleSetFrom r d.2 with
              | some r2 => r2
              | none => r) r0)

/-- The 32-bit word modulus used by the evaluator in the CFI scenario. -/
def M32 : Nat := 2 ^ 32

/-- Look up a register or pseudo-register in an environment. -/
def lookupEnv (env : List (String × Nat)) (nm : String) : Option Nat :=
  (env.find? (fun p => p.1 == nm)).map (fun p => p.2)

/-- Is the token a `$register` or `.pseudo-register` identifier? -/
def isIdentTok (t : String) : Bool :=
  match t.data with
  | '$' :: _ => true
  | '.' :: _ => true
  | _ => false

/-- One binary operation of the stack machine, on words modulo `M`
(truncating integer arithmetic; the source leaves division by zero
undefined — modelled as zero, never exercised here). -/
def wordOp (M : Nat) (op : String) (a b : Nat) : Nat :=
  if op = "+" then (a + b) % M
  else if op = "-" then (a + (M - b % M)) % M
  else if op = "*" then (a * b) % M
  else if op = "/" then if b % M = 0 then 0 else a % M / (b % M)
  else if b % M = 0 then 0 else a % M % (b % M)

/-- Modelled from the spec (4.F): the postfix stack machine in value mode
(no assignment tokens): literals push, identifiers push their environment
value (an undefined identifier fails), binary operators and dereference
combine; a memory-read failure fails the evaluation. -/
def evalTokens (M : Nat) (env : List (String × Nat)) (mem : Nat → Option Nat) :
    List String → List Nat → Option (List Nat)
  | [], stack => some stack
  | t :: ts, stack =>
      if t = "+" ∨ t = "-" ∨ t = "*" ∨ t = "/" ∨ t = "%" then
        match stack with
        | b :: a :: rest => evalTokens M env mem ts (wordOp M t a b :: rest)
        | _ => none
      else if t = "^" then
        match stack with
        | addr :: rest =>
            match mem addr with
            | some v => evalTokens M env mem ts (v % M :: rest)
            | none => none
        | _ => none
      else if isIdentTok t then
        match lookupEnv env t with
        | some v => evalTokens M env mem ts (v % M :: stack)
        | none => none
      else
        match parseLong t with
        | some v => evalTokens M env mem ts ((v % (M : Int)).toNat :: stack)
        | none => none

/-- Modelled from the spec (4.G): `PostfixEvaluator::EvaluateForValue` — run
the machine on an empty stack and demand exactly one remaining value. -/
def evalForValue (M : Nat) (env : List (String × Nat)) (mem : Nat → Option Nat)
    (expr : List String) : Option Nat :=
  match evalTokens M env mem expr [] with
  | some [v] => some v
  | _ => none

/-- Modelled from the spec (4.G): `CFIFrameInfo::FindCallerRegs`.  Fails
without a `.cfa` or `.ra` rule.  `.cfa` is evaluated first against the
callee registers; `.ra` and every per-register rule are then evaluated
against the callee registers extended with the fresh `.cfa`.  Any
evaluation failure discards the whole result.  The caller map contains
exactly `.cfa`, `.ra` and one entry per register rule. -/
def findCallerRegs (M : Nat) (rules : CFIRules) (regs : List (String × Nat))
    (mem : Nat → Option Nat) : Option (List (String × Nat)) :=
  match rules.cfaExpr with
  | none => none
  | some cfaE =>
      match evalForValue M regs mem cfaE with
      | none => none
      | some cfa =>
          match rules.raExpr with
          | none => none
          | some raE =>
              let env := (".cfa", cfa) :: regs
              match evalForValue M env mem raE with
              | none => none
              | some ra =>
                  match rules.regRules.mapM
                    (fun q => (evalForValue M env mem q.2).map
                      (fun v => (q.1, v))) with
                  | some l => some ((".cfa", cfa) :: (".ra", ra) :: l)
                  | none => none

/-! ## Module builder and store (spec 4.C, 4.D) -/

/-- A module as installed in the store, with its corruption marker. -/
structure LoadedModule where
  module : Module
  corrupt : Bool
  deriving DecidableEq, Repr

/-- The empty module. -/
def emptyModule : Module :=
  ⟨[], [], [], [], [], [], []⟩

/-- Builder state: tables built so far, the current function collecting
line and inline records, and the corruption flag. -/
structure BuildAcc where
  files : List (Int × String) := []
  origins : List (Int × String) := []
  doneFuncs : List FunctionRecord := []
  curFunc : Option FunctionRecord := none
  publics : List PublicRecord := []
  corrupt : Bool := false
  deriving Repr

/-- Close the current function, appending it to the finished list. -/
def flushFunc (acc : BuildAcc) : BuildAcc :=
  match acc.curFunc with
  | some f => { acc with doneFuncs := acc.doneFuncs ++ [f], curFunc := none }
  | none => acc

/-- The inline record built from a parsed `INLINE` line. -/
def mkInlineRecord (il : InlineLine) : InlineRecord :=
  { nestLevel := il.nestLevel.toNat
    callSiteLine := il.callSiteLine
    callSiteFileId := if il.hasCallSiteFileId then some il.callSiteFileId else none
    originId := il.originId
    ranges := il.ranges }

/-- Modelled from the spec (4.C): one forward pass step of the module
builder.  `MODULE` and `INFO` headers are skipped; `STACK` records are
outside this builder's subset (the concrete CFI/WIN tables below are given
directly); a malformed known record, a line record outside any function,
or an `INLINE` outside any function flags the module corrupt and drops the
record. -/
def buildStep (acc : BuildAcc) (line : String) : BuildAcc :=
  match words line with
  | [] => acc
  | w :: _ =>
      if w = "MODULE" ∨ w = "INFO" ∨ w = "STACK" then acc
      else if w = "FILE" then
        match parseFile line with
        | some fl => { acc with files := acc.files ++ [(fl.index, fl.filename)] }
        | none => { acc with corrupt := true }
      else if w = "FUNC" then
        match parseFunction line with
        | some fn =>
            let acc2 := flushFunc acc
            let nf : FunctionRecord :=
              ⟨fn.name, fn.address, fn.size, fn.paramSize, fn.multiple, [], []⟩
            { acc2 with curFunc := some nf }
        | none => { acc with corrupt := true }
      else if w = "PUBLIC" then
        match parsePublicSymbol line with
        | some pl => { acc with publics := acc.publics ++
            [⟨pl.name, pl.address, pl.paramSize, pl.multiple⟩] }
        | none => { acc with corrupt := true }
      else if w = "INLINE_ORIGIN" then
        match parseInlineOrigin line with
        | some io => { acc with origins := acc.origins ++ [(io.originId, io.name)] }
        | none => { acc with corrupt := true }
      else if w = "INLINE" then
        match parseInline line, acc.curFunc with
        | some il, some f =>
            let nf := { f with inlines := f.inlines ++ [mkInlineRecord il] }
            { acc with curFunc := some nf }
        | _, _ => { acc with corrupt := true }
      else
        match parseLine line, acc.curFunc with
        | some ll, some f =>
            let nl : LineRecord := ⟨ll.address, ll.size, ll.lineNumber, ll.sourceFile⟩
            let nf := { f with lines := f.lines ++ [nl] }
            { acc with curFunc := some nf }
        | _, _ => { acc with corrupt := true }

/-- Modelled from the spec (4.C/4.D): parse the lines of a symbol file into
a module and its corruption flag. -/
def parseSymbolFile (ls : List String) : Module × Bool :=
  let acc := flushFunc (ls.foldl buildStep {})
  (⟨acc.files, acc.origins, acc.doneFuncs, acc.publics, [], [], []⟩, acc.corrupt)

/-- Find a loaded module by key in the store. -/
def storeLookup (st : List (String × LoadedModule)) (k : String) :
    Option LoadedModule :=
  (st.find? (fun p => p.1 == k)).map (fun p => p.2)

/-- `HasModule`: is a module with this key installed? -/
def hasModule (st : List (String × LoadedModule)) (k : String) : Bool :=
  (storeLookup st k).isSome

/-- `IsModuleCorrupt`: the installed module's corruption flag (false when
absent). -/
def isModuleCorrupt (st : List (String × LoadedModule)) (k : String) : Bool :=
  match storeLookup st k with
  | some lm => lm.corrupt
  | none => false

/-- Modelled from the spec (4.D): `LoadModule`.  The file argument is the
file's lines, or `none` for an absent/unreadable file.  An I/O failure
reports `false` and installs nothing; otherwise the parsed module is
installed — with its corruption flag when records failed to parse — and
the load reports `true`. -/
def loadModule (st : List (String × LoadedModule)) (key : String)
    (file : Option (List String)) : Bool × List (String × LoadedModule) :=
  match file with
  | none => (false, st)
  | some ls =>
      let built := parseSymbolFile ls
      (true, (key, ⟨built.1, built.2⟩) :: st)

/-- Modelled from the spec (6): `FillSourceLineInfo`.  A frame with a null
module, or whose module is not in the store, is left untouched; otherwise
the module's `LookupAddress` fills it. -/
def fillSourceLineInfo (st : List (String × LoadedModule)) (frame : StackFrame)
    (inls : Option (List StackFrame)) : StackFrame × Option (List StackFrame) :=
  match frame.module with
  | none => (frame, inls)
  | some k =>
      match storeLookup st k with
      | none => (frame, inls)
      | some lm => lookupAddress lm.module frame inls

/-! ## Concrete modules (spec 8, seed scenarios)

The symbol files these modules come from (`module1.out`, `module2.out`,
`linux_inline.new.sym`) are not among the available sources; the module
values below are modelled from the spec's seed scenarios and the behaviour
the unit test demands of them.
-/

/-- Modelled from the spec: the `module1` line/function/public tables —
`FUNC m 1000 c 4 Function1_1` with line records in `file1_1.cc`,
`Function1_3`/`Function1_4` without line records, `LargeFunction` at
`0x4000`, and `PUBLIC m 2900 0 PublicSymbol`. -/
def module1Functions : List FunctionRecord :=
  [ ⟨"Function1_1", 0x1000, 0xc, 4, true,
      [⟨0x1000, 4, 44, 1⟩, ⟨0x1004, 4, 45, 1⟩, ⟨0x1008, 4, 46, 1⟩], []⟩,
    ⟨"Function1_2", 0x1100, 0x8, 0, false, [⟨0x1100, 4, 65, 2⟩], []⟩,
    ⟨"Function1_3", 0x1200, 0x100, 8, false, [], []⟩,
    ⟨"Function1_4", 0x1300, 0x100, 12, false, [], []⟩,
    ⟨"LargeFunction", 0x4000, 0x1000, 0, false, [], []⟩ ]

/-- The `STACK WIN 4` program string of `module1`'s `Function1_1`. -/
def module1Program : String :=
  "$eip 4 + ^ = $esp $ebp 8 + = $ebp $ebp ^ ="

/-- Modelled from the spec: `module1`'s `STACK WIN` records — `FRAME_DATA`
records covering `Function1_1` and `Function1_4`; nothing covers
`Function1_3` (whose queries are served by the function fallback). -/
def module1WinRecords : List WinRecord :=
  [ ⟨0x1000, 0xc, ⟨STACK_INFO_FRAME_DATA, 1, 4, false, module1Program⟩⟩,
    ⟨0x1300, 0x100, ⟨STACK_INFO_FRAME_DATA, 1, 12, false, module1Program⟩⟩ ]

/-- Modelled from the spec (8, scenario 5): `module1`'s CFI — one INIT at
`0x3d40` of size `0xb0` establishing `.cfa: $esp 4 +` and
`.ra: .cfa 4 - ^`, and deltas extending the `$ebp`, `$ebx`, `$esi`, `$edi`
saves. -/
def module1CfiInits : List CfiInitRecord :=
  [ ⟨0x3d40, 0xb0, ".cfa: $esp 4 + .ra: .cfa 4 - ^"⟩ ]

/-- Modelled from the spec (8, scenario 5): the delta rules of `module1`'s
single INIT (ascending addresses). -/
def module1CfiDeltas : List (Nat × String) :=
  [ (0x3d41, "$ebp: .cfa 8 - ^"),
    (0x3d54, "$ebx: .cfa 20 - ^"),
    (0x3d5a, "$esi: .cfa 16 - ^"),
    (0x3d84, "$edi: .cfa 12 - ^") ]

/-- Modelled from the spec: the module `module1` of the seed scenarios. -/
def module1 : Module :=
  { files := [(1, "file1_1.cc"), (2, "file1_2.cc")]
    inlineOrigins := []
    functions := module1Functions
    publics := [⟨"PublicSymbol", 0x2900, 0, true⟩]
    winRecords := module1WinRecords
    cfiInits := module1CfiInits
    cfiDeltas := module1CfiDeltas }

/-- Modelled from the spec: the module `module2` — `Function2_1` and
`Function2_2` (line `21` of `file2_2.cc` at `0x2180`), with publics
`Public2_1` at `0x2160` and `Public2_2` at `0x21a0`.  The gap
`[0x2184, 0x21a0)` behind `Function2_2` is where the public fallback
declines `Public2_1`. -/
def module2 : Module :=
  { files := [(1, "file2_1.cc"), (2, "file2_2.cc")]
    inlineOrigins := []
    functions :=
      [ ⟨"Function2_1", 0x2000, 0x100, 4, false, [⟨0x2000, 0x10, 54, 1⟩], []⟩,
        ⟨"Function2_2", 0x2170, 0x14, 4, false,
          [⟨0x2170, 6, 10, 2⟩, ⟨0x2176, 4, 12, 2⟩, ⟨0x217a, 6, 16, 2⟩,
           ⟨0x2180, 0xa, 21, 2⟩], []⟩ ]
    publics := [⟨"Public2_1", 0x2160, 0, false⟩, ⟨"Public2_2", 0x21a0, 0, false⟩]
    winRecords := [⟨0x2170, 0x14, ⟨STACK_INFO_FRAME_DATA, 1, 4, false, module1Program⟩⟩]
    cfiInits := []
    cfiDeltas := [] }

/-- Modelled from the spec (8, scenario 6): the new-format `main` function
of `linux_inline` at `0x15b30`, with three nested INLINE records (`foo()`
called from `a.cpp:42`, `bar()` from `b.cpp:39`, `func()` from `c.cpp:32`)
and line record `161b6 22 27 0` in `linux_inline.cpp`. -/
def linuxMainNew : FunctionRecord :=
  ⟨"main", 0x15b30, 0x6a8, 0, false,
    [⟨0x15b30, 0x15, 41, 0⟩, ⟨0x161b6, 0x22, 27, 0⟩],
    [ ⟨0, 42, some 1, 2, [(0x15b45, 0x693)]⟩,
      ⟨1, 39, some 2, 1, [(0x15b72, 0x666)]⟩,
      ⟨2, 32, some 3, 0, [(0x15b83, 0x655)]⟩ ]⟩

/-- Modelled from the spec (8, scenario 6): the new-format `linux_inline`
module. -/
def linuxInlineNew : Module :=
  { files := [(0, "linux_inline.cpp"), (1, "a.cpp"), (2, "b.cpp"), (3, "c.cpp")]
    inlineOrigins := [(0, "func()"), (1, "bar()"), (2, "foo()")]
    functions := [linuxMainNew]
    publics := []
    winRecords := []
    cfiInits := []
    cfiDeltas := [] }

/-- Modelled from the spec: the old-format `linux_inline` module — the same
shape as `linuxInlineNew` but the INLINE records carry no call-site file
ids, so every reported file is the line record's `linux_inline.cpp`. -/
def linuxInlineOld : Module :=
  { files := [(0, "linux_inline.cpp")]
    inlineOrigins := [(0, "func()"), (1, "bar()"), (2, "foo()")]
    functions :=
      [ ⟨"main", 0x15b30, 0x6a8, 0, false,
          [⟨0x15b30, 0x15, 41, 0⟩, ⟨0x161b6, 0x22, 27, 0⟩],
          [ ⟨0, 42, none, 2, [(0x15b45, 0x693)]⟩,
            ⟨1, 39, none, 1, [(0x15b72, 0x666)]⟩,
            ⟨2, 32, none, 0, [(0x15b83, 0x655)]⟩ ]⟩ ]
    publics := []
    winRecords := []
    cfiInits := []
    cfiDeltas := [] }

/-- A module with two abutting CFI INIT ranges, `[0x3d40, 0x3df0)` and
`[0x3df0, 0x3ea0)` (the ranges module1 and module2 cover, here side by
side in one module, as adjacent functions' INITs routinely are). -/
def twoInitModule : Module :=
  { emptyModule with
      cfiInits :=
        [ ⟨0x3d40, 0xb0, ".cfa: $esp 4 + .ra: .cfa 4 - ^"⟩,
          ⟨0x3df0, 0xb0, ".cfa: $esp 8 + .ra: .cfa 4 - ^"⟩ ] }

/-- The callee registers of the CFI seed scenario (spec 8, scenario 5). -/
def calleeRegs : List (String × Nat) :=
  [ ("$esp", 0x10018), ("$ebp", 0x10038), ("$ebx", 0x98ecadc3),
    ("$esi", 0x878f7524), ("$edi", 0x6312f9a5) ]

/-- The memory reader of the CFI seed scenario: the five stack words of the
scenario, junk elsewhere, all reads succeeding. -/
def mockMemory (a : Nat) : Option Nat :=
  some (if a = 0x10008 then 0x98ecadc3
        else if a = 0x1000c then 0x878f7524
        else if a = 0x10010 then 0x6312f9a5
        else if a = 0x10014 then 0x10038
        else if a = 0x10018 then 0xf6438648
        else 0xdeadbeef)

/-- The caller register map the CFI seed scenario expects. -/
def expectedCallerRegs : List (String × Nat) :=
  [ (".cfa", 0x1001c), (".ra", 0xf6438648), ("$ebp", 0x10038),
    ("$ebx", 0x98ecadc3), ("$esi", 0x878f7524), ("$edi", 0x6312f9a5) ]

/-- Modelled from the spec (7): the content of a symbol file whose readable
text mixes well-formed records with malformed ones (`module3_bad.out` in
the unit test): the `FUNC`/line/`FILE` records parse, the last two lines do
not. -/
def badFileLines : List String :=
  [ "MODULE os x86 111111 module3",
    "FILE 1 file1.cc",
    "FUNC 1000 c 0 GoodFunction",
    "1000 c 44 1",
    "FUNC 1z 2 3 bad function",
    "PUBLIC x 1 5 n" ]

/-- A store with `module1` and `module2` loaded. -/
def basicStore : List (String × LoadedModule) :=
  [("module1", ⟨module1, false⟩), ("module2", ⟨module2, false⟩)]

/-- A store with the new-format `linux_inline` module loaded. -/
def linuxStoreNew : List (String × LoadedModule) :=
  [("linux_inline", ⟨linuxInlineNew, false⟩)]

/-- The inline query of the seed scenario: `FillSourceLineInfo` on the
new-format `linux_inline` module at `ip = 0x161b6`, collecting inline
frames. -/
def inlineQueryResult : StackFrame × Option (List StackFrame) :=
  fillSourceLineInfo linuxStoreNew
    { instruction := 0x161b6, module := some "linux_inline" } (some [])

/-- The enclosing `main` frame as it stands just before inline-frame
construction in the seed scenario: function info and the line record at
`0x161b6` filled in. -/
def preInlineFrame : StackFrame :=
  { instruction := 0x161b6, module := some "linux_inline",
    functionName := "main", functionBase := 0x15b30,
    sourceFileName := "linux_inline.cpp", sourceLine := 27,
    sourceLineBase := 0x161b6 }

/-! ## Helper lemmas -/

theorem containsRange_iff {b s a : Nat} :
    containsRange b s a = true ↔ b ≤ a ∧ a < b + s := by
  simp [containsRange, Bool.and_eq_true, decide_eq_true_eq]

theorem nearestLE_eq_none {α : Type} (keyOf : α → Nat) (l : List α) (a : Nat) :
    nearestLE keyOf l a = none ↔ ∀ y ∈ l, a < keyOf y := by
  induction l with
  | nil => simp [nearestLE]
  | cons z zs ih =>
      simp only [nearestLE]
      by_cases hz : keyOf z ≤ a
      · rw [if_pos hz]
        constructor
        · intro h
          cases hr : nearestLE keyOf zs a with
          | none => rw [hr] at h; exact Option.noConfusion h
          | some w =>
              rw [hr] at h
              replace h : (if keyOf w < keyOf z then some z else some w) = none := h
              by_cases hlt : keyOf w < keyOf z
              · rw [if_pos hlt] at h; exact Option.noConfusion h
              · rw [if_neg hlt] at h; exact Option.noConfusion h
        · intro h
          exact absurd (h z (List.mem_cons_self z zs)) (by omega)
      · rw [if_neg hz]
        rw [ih]
        constructor
        · intro h y hy
          rcases List.mem_cons.mp hy with rfl | hy2
          · omega
          · exact h y hy2
        · intro h y hy
          exact h y (List.mem_cons_of_mem z hy)

theorem nearestLE_spec {α : Type} (keyOf : α → Nat) (l : List α) (a : Nat) :
    ∀ x, nearestLE keyOf l a = some x →
      x ∈ l ∧ keyOf x ≤ a ∧ ∀ y ∈ l, keyOf y ≤ a → keyOf y ≤ keyOf x := by
  induction l with
  | nil => intro x h; exact absurd h (by simp [nearestLE])
  | cons z zs ih =>
      intro x h
      simp only [nearestLE] at h
      by_cases hz : keyOf z ≤ a
      · rw [if_pos hz] at h
        cases hr : nearestLE keyOf zs a with
        | none =>
            rw [hr] at h
            replace h : some z = some x := h
            have hx : z = x := Option.some.inj h
            subst hx
            refine ⟨List.mem_cons_self z zs, hz, ?_⟩
            intro y hy hya
            rcases List.mem_cons.mp hy with rfl | hy2
            · exact le_refl _
            · exact absurd hya (by
                have := (nearestLE_eq_none keyOf zs a).mp hr y hy2
                omega)
        | some w =>
            rw [hr] at h
            replace h : (if keyOf w < keyOf z then some z else some w) = some x := h
            obtain ⟨hwmem, hwle, hwmax⟩ := ih w hr
            by_cases hlt : keyOf w < keyOf z
            · rw [if_pos hlt] at h
              have hx : z = x := Option.some.inj h
              subst hx
              refine ⟨List.mem_cons_self z zs, hz, ?_⟩
              intro y hy hya
              rcases List.mem_cons.mp hy with rfl | hy2
              · exact le_refl _
              · exact le_trans (hwmax y hy2 hya) (le_of_lt hlt)
            · rw [if_neg hlt] at h
              have hx : w = x := Option.some.inj h
              subst hx
              refine ⟨List.mem_cons_of_mem z hwmem, hwle, ?_⟩
              intro y hy hya
              rcases List.mem_cons.mp hy with rfl | hy2
              · omega
              · exact hwmax y hy2 hya
      · rw [if_neg hz] at h
        obtain ⟨hmem, hle, hmax⟩ := ih x h
        refine ⟨List.mem_cons_of_mem z hmem, hle, ?_⟩
        intro y hy hya
        rcases List.mem_cons.mp hy with rfl | hy2
        · omega
        · exact hmax y hy2 hya

theorem nearestLE_isSome {α : Type} (keyOf : α → Nat) (l : List α) (a : Nat)
    (y : α) (hy : y ∈ l) (hya : keyOf y ≤ a) :
    ∃ x, nearestLE keyOf l a = some x := by
  cases hx : nearestLE keyOf l a with
  | none => exact absurd hya (by
      have := (nearestLE_eq_none keyOf l a).mp hx y hy
      omega)
  | some x => exact ⟨x, rfl⟩

/-- Two function intervals do not intersect. -/
def FuncDisjoint (f g : FunctionRecord) : Prop :=
  f.address + f.size ≤ g.address ∨ g.address + g.size ≤ f.address

theorem funcDisjoint_symm : Symmetric FuncDisjoint :=
  fun _ _ h => h.symm

theorem decValueAux_digits {acc : Nat} {cs : List Char} {n : Nat}
    (h : decValueAux acc cs = some n) : ∀ c ∈ cs, (digitVal c).isSome := by
  induction cs generalizing acc with
  | nil => intro c hc; exact absurd hc (List.not_mem_nil c)
  | cons d ds ih =>
      intro c hc
      simp only [decValueAux] at h
      cases hd : digitVal d with
      | none => rw [hd] at h; exact Option.noConfusion h
      | some v =>
          rw [hd] at h
          rcases List.mem_cons.mp hc with rfl | hc2
          · simp [hd]
          · exact ih h c hc2

theorem decValue_eq_none_of_nondigit {cs : List Char} {c : Char}
    (hc : c ∈ cs) (hd : digitVal c = none) : decValue cs = none := by
  cases cs with
  | nil => rfl
  | cons e es =>
      simp only [decValue]
      cases h : decValueAux 0 (e :: es) with
      | none => rfl
      | some n =>
          exact absurd hd (by
            have := decValueAux_digits h c hc
            simp [Option.isSome_iff_exists] at this
            obtain ⟨v, hv⟩ := this
            simp [hv])

theorem hexValueAux_digits {acc : Nat} {cs : List Char} {n : Nat}
    (h : hexValueAux acc cs = some n) : ∀ c ∈ cs, (hexDigitVal c).isSome := by
  induction cs generalizing acc with
  | nil => intro c hc; exact absurd hc (List.not_mem_nil c)
  | cons d ds ih =>
      intro c hc
      simp only [hexValueAux] at h
      cases hd : hexDigitVal d with
      | none => rw [hd] at h; exact Option.noConfusion h
      | some v =>
          rw [hd] at h
          rcases List.mem_cons.mp hc with rfl | hc2
          · simp [hd]
          · exact ih h c hc2

theorem hexValue_eq_none_of_nondigit {cs : List Char} {c : Char}
    (hc : c ∈ cs) (hd : hexDigitVal c = none) : hexValue cs = none := by
  cases cs with
  | nil => rfl
  | cons e es =>
      simp only [hexValue]
      cases h : hexValueAux 0 (e :: es) with
      | none => rfl
      | some n =>
          exact absurd hd (by
            have := hexValueAux_digits h c hc
            simp [Option.isSome_iff_exists] at this
            obtain ⟨v, hv⟩ := this
            simp [hv])

instance (f g : FunctionRecord) : Decidable (FuncDisjoint f g) :=
  inferInstanceAs (Decidable (Or _ _))

theorem parseInlineToks_parity (toks : List String) (r : InlineLine)
    (hp : parseInlineToks toks = some r) :
    r.hasCallSiteFileId = newFormatToks toks := by
  unfold parseInlineToks at hp
  repeat
    first
    | exact Option.noConfusion hp
    | split at hp
  all_goals
    first
    | exact Option.noConfusion hp
    | (obtain rfl := (Option.some.inj hp).symm; rfl)

theorem resolveFunction_isSome_iff (m : Module) (a : Nat)
    (hdisj : m.functions.Pairwise FuncDisjoint)
    (hpos : ∀ f ∈ m.functions, 0 < f.size) :
    (resolveFunction m a).isSome ↔
      ∃ f ∈ m.functions, containsRange f.address f.size a = true := by
  constructor
  · intro h
    rw [Option.isSome_iff_exists] at h
    obtain ⟨f, hf⟩ := h
    unfold resolveFunction at hf
    cases hn : nearestLE (fun f => f.address) m.functions a with
    | none => rw [hn] at hf; exact Option.noConfusion hf
    | some g =>
        rw [hn] at hf
        replace hf : (if containsRange g.address g.size a = true then some g
            else none) = some f := hf
        by_cases hc : containsRange g.address g.size a = true
        · obtain ⟨hmem, _, _⟩ := nearestLE_spec _ m.functions a g hn
          exact ⟨g, hmem, hc⟩
        · rw [if_neg hc] at hf; exact Option.noConfusion hf
  · rintro ⟨f, hfmem, hfc⟩
    rw [containsRange_iff] at hfc
    obtain ⟨x, hx⟩ := nearestLE_isSome (fun f : FunctionRecord => f.address) m.functions a f hfmem hfc.1
    obtain ⟨hxmem, hxle, hxmax⟩ := nearestLE_spec _ m.functions a x hx
    have hfx : f.address ≤ x.address := hxmax f hfmem hfc.1
    have hcx : containsRange x.address x.size a = true := by
      rw [containsRange_iff]
      refine ⟨hxle, ?_⟩
      by_cases hfeq : f = x
      · subst hfeq; omega
      · have hd := hdisj.forall funcDisjoint_symm hfmem hxmem hfeq
        have hxpos := hpos x hxmem
        unfold FuncDisjoint at hd
        rcases hfc with ⟨hfc1, hfc2⟩
        rcases hd with h1 | h2
        · omega
        · omega
    unfold resolveFunction
    rw [hx]
    show (if containsRange x.address x.size a = true then some x else none).isSome = true
    rw [if_pos hcx]
    rfl

theorem publicFallback_isSome_iff (m : Module) (a : Nat) :
    (publicFallback m a).isSome ↔
      ∃ p ∈ m.publics, p.address ≤ a ∧
        ∀ g, nearestLE (fun f => f.address) m.functions a = some g →
          g.address < p.address := by
  constructor
  · intro h
    rw [Option.isSome_iff_exists] at h
    obtain ⟨p, hp⟩ := h
    unfold publicFallback at hp
    cases hq : nearestLE (fun p => p.address) m.publics a with
    | none => rw [hq] at hp; exact Option.noConfusion hp
    | some q =>
        rw [hq] at hp
        replace hp : (match nearestLE (fun f => f.address) m.functions a with
            | some f => if f.address < q.address then some q else none
            | none => some q) = some p := hp
        obtain ⟨hqmem, hqle, _⟩ := nearestLE_spec _ m.publics a q hq
        cases hf : nearestLE (fun f => f.address) m.functions a with
        | none =>
            refine ⟨q, hqmem, hqle, ?_⟩
            intro g hg
            exact Option.noConfusion hg
        | some f0 =>
            rw [hf] at hp
            replace hp : (if f0.address < q.address then some q else none) = some p := hp
            by_cases hlt : f0.address < q.address
            · refine ⟨q, hqmem, hqle, ?_⟩
              intro g hg
              have hfg : f0 = g := Option.some.inj hg
              subst hfg
              exact hlt
            · rw [if_neg hlt] at hp; exact Option.noConfusion hp
  · rintro ⟨p, hpmem, hple, hcond⟩
    obtain ⟨q, hq⟩ := nearestLE_isSome (fun p : PublicRecord => p.address) m.publics a p hpmem hple
    obtain ⟨hqmem, hqle, hqmax⟩ := nearestLE_spec _ m.publics a q hq
    have hpq : p.address ≤ q.address := hqmax p hpmem hple
    unfold publicFallback
    rw [hq]
    show (match nearestLE (fun f : FunctionRecord => f.address) m.functions a with
        | some f => if f.address < q.address then some q else none
        | none => some q).isSome = true
    cases hf : nearestLE (fun f => f.address) m.functions a with
    | none => rfl
    | some f0 =>
        have hflt := hcond f0 hf
        show (if f0.address < q.address then some q else none).isSome = true
        rw [if_pos (by omega)]
        rfl

theorem publicFallback_greatest (m : Module) (a : Nat) (p : PublicRecord)
    (h : publicFallback m a = some p) :
    p ∈ m.publics ∧ p.address ≤ a ∧
      ∀ q ∈ m.publics, q.address ≤ a → q.address ≤ p.address := by
  unfold publicFallback at h
  cases hq : nearestLE (fun p => p.address) m.publics a with
  | none => rw [hq] at h; exact Option.noConfusion h
  | some q =>
      rw [hq] at h
      replace h : (match nearestLE (fun f => f.address) m.functions a with
          | some f => if f.address < q.address then some q else none
          | none => some q) = some p := h
      obtain ⟨hqmem, hqle, hqmax⟩ := nearestLE_spec _ m.publics a q hq
      have hqp : q = p := by
        cases hf : nearestLE (fun f => f.address) m.functions a with
        | none =>
            rw [hf] at h
            exact Option.some.inj h
        | some f0 =>
            rw [hf] at h
            replace h : (if f0.address < q.address then some q else none) = some p := h
            by_cases hlt : f0.address < q.address
            · rw [if_pos hlt] at h; exact Option.some.inj h
            · rw [if_neg hlt] at h; exact Option.noConfusion h
      subst hqp
      exact ⟨hqmem, hqle, hqmax⟩

theorem inlineChainAux_level (inls : List InlineRecord) (a : Nat) :
    ∀ fuel lvl k x, (inlineChainAux inls a lvl fuel).get? k = some x →
      x.nestLevel = lvl + k := by
  intro fuel
  induction fuel with
  | zero => intro lvl k x hx; exact absurd hx (by simp [inlineChainAux])
  | succ n ih =>
      intro lvl k x hx
      simp only [inlineChainAux] at hx
      cases hf : inls.find? (fun i => inlineMatches i lvl a) with
      | none => rw [hf] at hx; exact absurd hx (by simp)
      | some i =>
          rw [hf] at hx
          cases k with
          | zero =>
              have hix : i = x := by
                have : (i :: inlineChainAux inls a (lvl + 1) n).get? 0 = some i := rfl
                rw [this] at hx
                exact Option.some.inj hx
              subst hix
              have hmt := List.find?_some hf
              unfold inlineMatches at hmt
              rw [Bool.and_eq_true] at hmt
              have := beq_iff_eq.mp hmt.1
              omega
          | succ k2 =>
              have hx2 : (inlineChainAux inls a (lvl + 1) n).get? k2 = some x := hx
              have := ih (lvl + 1) k2 x hx2
              omega

theorem inlineChain_level (f : FunctionRecord) (a : Nat) :
    ∀ i (hi : i < (inlineChain f a).length),
      (inlineChain f a)[i].nestLevel = (inlineChain f a).length - 1 - i := by
  intro i hi
  unfold inlineChain at hi ⊢
  rw [List.getElem_reverse]
  have hlen : i < (inlineChainAux f.inlines a 0 (f.inlines.length + 1)).length := by
    simpa using hi
  have hk : (inlineChainAux f.inlines a 0 (f.inlines.length + 1)).length - 1 - i <
      (inlineChainAux f.inlines a 0 (f.inlines.length + 1)).length := by
    omega
  have hget := List.getElem?_eq_getElem hk
  rw [← List.get?_eq_getElem?] at hget
  have := inlineChainAux_level f.inlines a (f.inlines.length + 1) 0 _ _ hget
  rw [this]
  simp

theorem rotateCallSites_nil (fr : StackFrame) : rotateCallSites fr [] = (fr, []) :=
  rfl

theorem rotateCallSites_length (fr : StackFrame) (l : List StackFrame) :
    (rotateCallSites fr l).2.length = l.length := by
  unfold rotateCallSites
  cases hl : l.getLast? with
  | none =>
      have h : l = [] := List.getLast?_eq_none_iff.mp hl
      subst h
      rfl
  | some lastF =>
      have hne : l ≠ [] := by
        intro h
        subst h
        exact Option.noConfusion hl
      have hpos : 0 < l.length := List.length_pos.mpr hne
      show ((l.zip ((fr.sourceFileName, fr.sourceLine) ::
          (l.map (fun x => (x.sourceFileName, x.sourceLine))).dropLast)).map
          (fun q => { q.1 with sourceFileName := q.2.1, sourceLine := q.2.2 })).length
        = l.length
      rw [List.length_map, List.length_zip]
      simp only [List.length_cons, List.length_dropLast, List.length_map]
      omega

theorem rotateCallSites_pairsProj (fr : StackFrame) (l : List StackFrame)
    (hne : l ≠ []) :
    (rotateCallSites fr l).2.map (fun x => (x.sourceFileName, x.sourceLine)) =
      (fr.sourceFileName, fr.sourceLine) ::
        (l.map (fun x => (x.sourceFileName, x.sourceLine))).dropLast := by
  unfold rotateCallSites
  rw [List.getLast?_eq_getLast l hne]
  show ((l.zip ((fr.sourceFileName, fr.sourceLine) ::
      (l.map (fun x => (x.sourceFileName, x.sourceLine))).dropLast)).map
      (fun q => { q.1 with sourceFileName := q.2.1, sourceLine := q.2.2 })).map
      (fun x => (x.sourceFileName, x.sourceLine)) = _
  rw [List.map_map]
  have hfun : ((fun x : StackFrame => (x.sourceFileName, x.sourceLine)) ∘
      (fun q : StackFrame × (String × Int) =>
        { q.1 with sourceFileName := q.2.1, sourceLine := q.2.2 })) =
      Prod.snd := by
    funext q
    rcases q with ⟨x, u, v⟩
    rfl
  rw [hfun]
  apply List.map_snd_zip
  have hpos : 0 < l.length := List.length_pos.mpr hne
  simp only [List.length_cons, List.length_dropLast, List.length_map]
  omega

theorem rotateCallSites_outerPair (fr : StackFrame) (l : List StackFrame)
    (hne : l ≠ []) :
    (rotateCallSites fr l).1.sourceFileName = (l.getLast hne).sourceFileName
    ∧ (rotateCallSites fr l).1.sourceLine = (l.getLast hne).sourceLine := by
  unfold rotateCallSites
  rw [List.getLast?_eq_getLast l hne]
  exact ⟨rfl, rfl⟩

/-! ## Claim theorems -/

/-- C1: for the CFI INIT at `0x3d40` of size `0xb0` with rules
`.cfa: $esp 4 +` and `.ra: .cfa 4 - ^` and deltas saving `$ebp`, `$ebx`,
`$esi`, `$edi`, evaluating `FindCallerRegs` (at an instruction past all the
deltas, here `0x3d84`) with callee registers `$esp=0x10018`,
`$ebp=0x10038`, `$ebx=0x98ecadc3`, `$esi=0x878f7524`, `$edi=0x6312f9a5`
and the scenario's memory reader succeeds and produces exactly the caller
map `{ .cfa: 0x1001c, .ra: 0xf6438648, $ebp: 0x10038, $ebx: 0x98ecadc3,
$esi: 0x878f7524, $edi: 0x6312f9a5 }`. -/
theorem c1_cfi_caller_recovery :
    selectCfiInit module1 0x3d84 =
      some ⟨0x3d40, 0xb0, ".cfa: $esp 4 + .ra: .cfa 4 - ^"⟩
    ∧ (findCFIFrameInfo module1 0x3d84).bind
        (fun r => findCallerRegs M32 r calleeRegs mockMemory) =
      some expectedCallerRegs := by
  decide

/-- C2 counterexample: on `INLINE 0 1 2 3 4` the token count after the
first three integer fields is even (two tokens), so the claim's rule
classifies it as new-format (fourth integer a `call_site_file_id`, fifth
the `origin_id`, hence origin 4); the parser instead classifies it as
old-format with `origin_id = 2` and no call-site file id. -/
theorem c2_counterexample :
    (((words "INLINE 0 1 2 3 4").drop 1).drop 3).length % 2 = 0
    ∧ (parseInline "INLINE 0 1 2 3 4").map (fun r => r.hasCallSiteFileId) =
        some false
    ∧ (parseInline "INLINE 0 1 2 3 4").map (fun r => r.originId) = some 2 := by
  decide

/-- C2 amended: the parser counts all the tokens after the `INLINE`
keyword; an even count is the new format (the record carries a
call-site file id), an odd count the old one — equivalently, after the
first three integer fields an even remainder means old and an odd
remainder new.  `INLINE 0 1 2 3 4` parses as old format with origin 2 and
range `(3,4)`; `INLINE 0 1 2 3 a b 1a 1b` parses as new format with
call-site file 2, origin 3 and ranges `(a,b)`, `(1a,1b)`. -/
theorem c2_inline_parity_amended :
    (∀ (s : String) (r : InlineLine) (toks : List String),
        parseInline s = some r → words s = "INLINE" :: toks →
        (r.hasCallSiteFileId = true ↔ toks.length % 2 = 0))
    ∧ parseInline "INLINE 0 1 2 3 4" = some ⟨false, 0, 1, 0, 2, [(3, 4)]⟩
    ∧ parseInline "INLINE 0 1 2 3 a b 1a 1b" =
        some ⟨true, 0, 1, 2, 3, [(0xa, 0xb), (0x1a, 0x1b)]⟩ := by
  refine ⟨?_, by decide, by decide⟩
  intro s r toks hp hw
  unfold parseInline at hp
  rw [hw] at hp
  replace hp : parseInlineToks toks = some r := hp
  rw [parseInlineToks_parity toks r hp]
  unfold newFormatToks
  simp

/-- C2 witness: the amended parity rule applied to `INLINE 0 1 2 3 4`. -/
theorem c2_inline_parity_witness :
    (InlineLine.mk false 0 1 0 2 [(3, 4)]).hasCallSiteFileId = true ↔
      (["0", "1", "2", "3", "4"] : List String).length % 2 = 0 :=
  c2_inline_parity_amended.1 "INLINE 0 1 2 3 4" ⟨false, 0, 1, 0, 2, [(3, 4)]⟩
    ["0", "1", "2", "3", "4"] (by decide) (by decide)

/-- C3 counterexample: on `module2` at `ip = 0x219f` no function interval
contains the instruction and `Public2_1` lies at the lower address
`0x2160`, yet the resolver returns no public symbol (`Function2_2` starts
at `0x2170`, above the public), so "otherwise it returns a public symbol
exactly when some public has address ≤ ip" fails. -/
theorem c3_counterexample :
    (¬ ∃ f ∈ module2.functions, containsRange f.address f.size 0x219f = true)
    ∧ (∃ p ∈ module2.publics, p.address ≤ 0x219f)
    ∧ publicFallback module2 0x219f = none
    ∧ (fillSourceLineInfo basicStore
        { instruction := 0x219f, module := some "module2" } none).1.functionName
        = "" := by
  decide

/-- C3 amended: for a module whose function intervals are pairwise
disjoint and non-empty, resolve returns a function exactly when some
function interval contains `ip`; it returns a public symbol exactly when
some public has address ≤ `ip` that additionally lies above the base of
the nearest function at or below `ip` (a public does not reach past a
later function's start), and the public chosen is the one with the
greatest address ≤ `ip`.  On `module2` the query at `0x219f` is decided by
this rule: no function and no public. -/
theorem c3_resolve_rules_amended (m : Module) (a : Nat)
    (hdisj : m.functions.Pairwise FuncDisjoint)
    (hpos : ∀ f ∈ m.functions, 0 < f.size) :
    ((resolveFunction m a).isSome ↔
        ∃ f ∈ m.functions, containsRange f.address f.size a = true)
    ∧ ((publicFallback m a).isSome ↔
        ∃ p ∈ m.publics, p.address ≤ a ∧
          ∀ g, nearestLE (fun f : FunctionRecord => f.address) m.functions a =
            some g → g.address < p.address)
    ∧ (∀ p, publicFallback m a = some p →
        p ∈ m.publics ∧ p.address ≤ a ∧
          ∀ q ∈ m.publics, q.address ≤ a → q.address ≤ p.address)
    ∧ resolveFunction module2 0x219f = none
    ∧ publicFallback module2 0x219f = none :=
  ⟨resolveFunction_isSome_iff m a hdisj hpos,
   publicFallback_isSome_iff m a,
   fun p hp => publicFallback_greatest m a p hp,
   by decide, by decide⟩

/-- C3 witness: the amended rule instantiated on `module2` at `0x2181`
(the function-containment side is inhabited there by `Function2_2`). -/
theorem c3_resolve_rules_witness :
    (resolveFunction module2 0x2181).isSome ↔
      ∃ f ∈ module2.functions, containsRange f.address f.size 0x2181 = true :=
  (c3_resolve_rules_amended module2 0x2181 (by decide) (by decide)).1

/-- C4 counterexample: on the new-format `linux_inline` module at
`ip = 0x161b6`, the function's own line record is
`linux_inline.cpp:27`, but the outermost (function) frame reports
`a.cpp:42` — the call site of the level-0 inline — so "the outermost
frame reports the function's own line record" fails. -/
theorem c4_counterexample :
    (resolveFunction linuxInlineNew 0x161b6).map
        (fun f => lineRecordAt f 0x161b6) = some (some ⟨0x161b6, 0x22, 27, 0⟩)
    ∧ fileLookup linuxInlineNew 0 = some "linux_inline.cpp"
    ∧ inlineQueryResult.1.sourceFileName = "a.cpp"
    ∧ inlineQueryResult.1.sourceLine = 42
    ∧ ¬ (inlineQueryResult.1.sourceFileName = "linux_inline.cpp"
          ∧ inlineQueryResult.1.sourceLine = 27) := by
  decide

/-- C4 amended: in every resolved inline chain (reported innermost-first)
the innermost inline frame (index 0) reports the enclosing frame's own
line-record file and line; the frame at index i+1 reports the call site
carried by the next deeper inline — the chain element at index i, whose
nest level exceeds its own by one — its line the record's call-site line
and its file the record's call-site file when present, else the enclosing
frame's file; and the outermost (function) frame reports the call site of
the chain's last element, the level-0 inline.  For the new-format input
at `ip = 0x161b6` this yields index 0 `func()` at `linux_inline.cpp:27`,
index 1 `bar()` at `c.cpp:32`, index 2 `foo()` at `b.cpp:39`, and outer
`main` at `a.cpp:42`. -/
theorem c4_inline_attribution_amended :
    (∀ (m : Module) (fr : StackFrame) (f : FunctionRecord) (a : Nat),
      (constructInlineFrames m fr f a).2.length = (inlineChain f a).length
      ∧ (inlineChain f a = [] → constructInlineFrames m fr f a = (fr, []))
      ∧ (∀ (h0 : 0 < (constructInlineFrames m fr f a).2.length),
          (constructInlineFrames m fr f a).2[0].sourceFileName = fr.sourceFileName
          ∧ (constructInlineFrames m fr f a).2[0].sourceLine = fr.sourceLine)
      ∧ (∀ (i : Nat) (hi : i + 1 < (constructInlineFrames m fr f a).2.length)
            (hc : i < (inlineChain f a).length),
          (constructInlineFrames m fr f a).2[i + 1].sourceLine =
            (inlineChain f a)[i].callSiteLine
          ∧ (constructInlineFrames m fr f a).2[i + 1].sourceFileName =
              (match (inlineChain f a)[i].callSiteFileId with
                | some fid => (fileLookup m fid).getD fr.sourceFileName
                | none => fr.sourceFileName))
      ∧ (∀ (hne : inlineChain f a ≠ []),
          (constructInlineFrames m fr f a).1.sourceLine =
            ((inlineChain f a).getLast hne).callSiteLine
          ∧ (constructInlineFrames m fr f a).1.sourceFileName =
              (match ((inlineChain f a).getLast hne).callSiteFileId with
                | some fid => (fileLookup m fid).getD fr.sourceFileName
                | none => fr.sourceFileName)))
    ∧ inlineQueryResult.1 =
      { instruction := 0x161b6, module := some "linux_inline",
        functionName := "main", functionBase := 0x15b30,
        sourceFileName := "a.cpp", sourceLine := 42,
        sourceLineBase := 0x161b6 }
    ∧ inlineQueryResult.2 = some
      [ { instruction := 0x161b6, module := some "linux_inline",
          functionName := "func()", functionBase := 0x15b83,
          sourceFileName := "linux_inline.cpp", sourceLine := 27,
          sourceLineBase := 0x161b6, trust := .trustInline },
        { instruction := 0x161b6, module := some "linux_inline",
          functionName := "bar()", functionBase := 0x15b72,
          sourceFileName := "c.cpp", sourceLine := 32,
          sourceLineBase := 0x161b6, trust := .trustInline },
        { instruction := 0x161b6, module := some "linux_inline",
          functionName := "foo()", functionBase := 0x15b45,
          sourceFileName := "b.cpp", sourceLine := 39,
          sourceLineBase := 0x161b6, trust := .trustInline } ] := by
  refine ⟨?_, by decide, by decide⟩
  intro m fr f a
  refine ⟨?_, ?_, ?_, ?_, ?_⟩
  · unfold constructInlineFrames
    rw [rotateCallSites_length, List.length_map]
  · intro he
    unfold constructInlineFrames
    rw [he]
    rfl
  · intro h0
    unfold constructInlineFrames at h0 ⊢
    have hlen := rotateCallSites_length fr ((inlineChain f a).map (makeInlineFrame m fr a))
    have hne : (inlineChain f a).map (makeInlineFrame m fr a) ≠ [] := by
      intro h
      rw [hlen, h] at h0
      simp at h0
    have hp := rotateCallSites_pairsProj fr _ hne
    have h00 : (((rotateCallSites fr
        ((inlineChain f a).map (makeInlineFrame m fr a))).2.map
        (fun x => (x.sourceFileName, x.sourceLine)))[0]?) =
        some (fr.sourceFileName, fr.sourceLine) := by
      rw [hp, List.getElem?_cons_zero]
    rw [List.getElem?_map, List.getElem?_eq_getElem h0] at h00
    simp only [Option.map_some', Option.some.injEq, Prod.mk.injEq] at h00
    exact h00
  · intro i hi hc
    unfold constructInlineFrames at hi ⊢
    have hlen := rotateCallSites_length fr ((inlineChain f a).map (makeInlineFrame m fr a))
    have hne : (inlineChain f a).map (makeInlineFrame m fr a) ≠ [] := by
      intro h
      rw [hlen, h] at hi
      simp at hi
    have hp := rotateCallSites_pairsProj fr _ hne
    have hidx : (((rotateCallSites fr
        ((inlineChain f a).map (makeInlineFrame m fr a))).2.map
        (fun x => (x.sourceFileName, x.sourceLine)))[i + 1]?) =
        ((((inlineChain f a).map (makeInlineFrame m fr a)).map
          (fun x => (x.sourceFileName, x.sourceLine))).dropLast)[i]? := by
      rw [hp, List.getElem?_cons_succ]
    have hbound : i < (((inlineChain f a).map (makeInlineFrame m fr a)).map
        (fun x => (x.sourceFileName, x.sourceLine))).dropLast.length := by
      simp only [List.length_dropLast, List.length_map]
      rw [hlen, List.length_map] at hi
      omega
    rw [List.getElem?_map, List.getElem?_eq_getElem hi,
        List.getElem?_eq_getElem hbound] at hidx
    rw [List.getElem_dropLast, List.getElem_map, List.getElem_map] at hidx
    simp only [Option.map_some', Option.some.injEq] at hidx
    exact ⟨congrArg Prod.snd hidx, congrArg Prod.fst hidx⟩
  · intro hne0
    unfold constructInlineFrames
    have hneM : (inlineChain f a).map (makeInlineFrame m fr a) ≠ [] := by
      intro h
      exact hne0 (List.map_eq_nil_iff.mp h)
    obtain ⟨hf, hl⟩ := rotateCallSites_outerPair fr _ hneM
    rw [List.getLast_map] at hf hl
    exact ⟨hl, hf⟩

/-- C4 witness: the amended attribution rule exercised on the concrete
three-element chain of the new-format `linux_inline` module — the frame
at index 1 reports the call-site line of the chain's innermost element,
and the outer frame the call-site line of the chain's last (level-0)
element. -/
theorem c4_inline_attribution_witness :
    ((constructInlineFrames linuxInlineNew preInlineFrame linuxMainNew
        0x161b6).2.get ⟨1, by decide⟩).sourceLine =
      ((inlineChain linuxMainNew 0x161b6).get ⟨0, by decide⟩).callSiteLine
    ∧ (constructInlineFrames linuxInlineNew preInlineFrame linuxMainNew
        0x161b6).1.sourceLine =
      ((inlineChain linuxMainNew 0x161b6).getLast (by decide)).callSiteLine :=
  ⟨((c4_inline_attribution_amended.1 linuxInlineNew preInlineFrame linuxMainNew
      0x161b6).2.2.2.1 0 (by decide) (by decide)).1,
   ((c4_inline_attribution_amended.1 linuxInlineNew preInlineFrame linuxMainNew
      0x161b6).2.2.2.2 (by decide)).1⟩

/-- C5 counterexample: no `STACK WIN` record of `module1` covers
`ip = 0x1280`, yet `FindWindowsFrameInfo` returns a result there (a
synthesized parameter-size-only record from the containing
`Function1_3`), so "returns none whenever no STACK WIN record's range
contains ip" fails. -/
theorem c5_counterexample :
    (∀ w ∈ module1.winRecords, containsRange w.address w.size 0x1280 = false)
    ∧ findWindowsFrameInfo module1 0x1280 ≠ none := by
  decide

/-- C5 amended: `find_windows_frame_info` returns the `FRAME_DATA` or
`FPO` WindowsFrameInfo whose range contains `ip` (preferring
`FRAME_DATA`); when no such record covers `ip` it synthesizes a
type-`UNKNOWN`, parameter-size-only record from the containing function
or the applicable public symbol, and returns none exactly when none of
these apply.  Concretely on `module1`: at `0x1280` it returns the
synthesized record (no STACK WIN covers that address), at `0x1380` the
covering `FRAME_DATA` record, and at `0x2000` none. -/
theorem c5_windows_lookup_amended :
    (∀ (m : Module) (a : Nat),
      (findWindowsFrameInfo m a = none ↔
        findWinRecordOfType m STACK_INFO_FRAME_DATA a = none
        ∧ findWinRecordOfType m STACK_INFO_FPO a = none
        ∧ resolveFunction m a = none
        ∧ publicFallback m a = none)
      ∧ ∀ t, (findWinRecordOfType m t a = none ↔
          ∀ w ∈ m.winRecords,
            ¬ (w.info.infoType = t ∧ containsRange w.address w.size a = true)))
    ∧ findWindowsFrameInfo module1 0x1280 =
        some { infoType := STACK_INFO_UNKNOWN, paramSize := 8 }
    ∧ findWindowsFrameInfo module1 0x1380 =
        some ⟨STACK_INFO_FRAME_DATA, 1, 12, false, module1Program⟩
    ∧ findWindowsFrameInfo module1 0x2000 = none := by
  refine ⟨?_, by decide, by decide, by decide⟩
  intro m a
  constructor
  · constructor
    · intro h
      unfold findWindowsFrameInfo at h
      split at h
      · exact Option.noConfusion h
      · split at h
        · exact Option.noConfusion h
        · split at h
          · exact Option.noConfusion h
          · split at h
            · exact Option.noConfusion h
            · refine ⟨by assumption, by assumption, by assumption, by assumption⟩
    · rintro ⟨h1, h2, h3, h4⟩
      unfold findWindowsFrameInfo
      rw [h1, h2, h3, h4]
  · intro t
    unfold findWinRecordOfType
    rw [List.find?_eq_none]
    constructor
    · intro h w hw hc
      have := h w hw
      rw [Bool.and_eq_true] at this
      exact this ⟨beq_iff_eq.mpr hc.1, hc.2⟩
    · intro h w hw
      have := h w hw
      rw [Bool.and_eq_true]
      intro hc
      exact this ⟨beq_iff_eq.mp hc.1, hc.2⟩

/-- C6 counterexample: in a module with two abutting CFI INIT ranges
`[0x3d40, 0x3df0)` and `[0x3df0, 0x3ea0)`, the lookup at the first INIT's
end address `0x3df0` returns the second INIT rather than none, so "the
CFI lookup returns none at INIT.address + size" fails for the first
INIT. -/
theorem c6_counterexample :
    (⟨0x3d40, 0xb0, ".cfa: $esp 4 + .ra: .cfa 4 - ^"⟩ : CfiInitRecord) ∈
      twoInitModule.cfiInits
    ∧ (0x3d40 : Nat) + 0xb0 = 0x3df0
    ∧ selectCfiInit twoInitModule 0x3df0 ≠ none := by
  decide

/-- C6 amended: CFI INIT ranges are start-inclusive and end-exclusive, so
the lookup never selects a given INIT at `INIT.address − 1` or at
`INIT.address + size` (another INIT's range may still cover those
addresses); the lookup returns none exactly when no INIT's range contains
the address.  Concretely, `FindCFIFrameInfo` on `module1` (whose single
INIT covers `0x3d40..0x3def`) returns none at `0x3d3f` and `0x3e9f`. -/
theorem c6_cfi_boundaries_amended :
    (∀ (m : Module) (i : CfiInitRecord) (ip : Nat), i ∈ m.cfiInits →
        (ip + 1 = i.address ∨ ip = i.address + i.size) →
        ∀ j, selectCfiInit m ip = some j → j ≠ i)
    ∧ (∀ (m : Module) (ip : Nat),
        (selectCfiInit m ip = none ↔
          ∀ i ∈ m.cfiInits, containsRange i.address i.size ip = false))
    ∧ findCFIFrameInfo module1 0x3d3f = none
    ∧ findCFIFrameInfo module1 0x3e9f = none := by
  refine ⟨?_, ?_, by decide, by decide⟩
  · intro m i ip _ hb j hj hji
    subst hji
    unfold selectCfiInit at hj
    have hpj := List.find?_some hj
    replace hpj : containsRange j.address j.size ip = true := hpj
    have hc := containsRange_iff.mp hpj
    rcases hb with hb | hb <;> omega
  · intro m ip
    unfold selectCfiInit
    rw [List.find?_eq_none]
    constructor
    · intro h i hi
      have := h i hi
      simp only [Bool.not_eq_true] at this
      exact this
    · intro h i hi
      rw [h i hi]
      simp

/-- C6 witness: the boundary rule applied in the abutting-INIT module —
the INIT selected at `0x3df0` is not the INIT ending there. -/
theorem c6_cfi_boundaries_witness :
    (⟨0x3df0, 0xb0, ".cfa: $esp 8 + .ra: .cfa 4 - ^"⟩ : CfiInitRecord) ≠
      ⟨0x3d40, 0xb0, ".cfa: $esp 4 + .ra: .cfa 4 - ^"⟩ :=
  c6_cfi_boundaries_amended.1 twoInitModule
    ⟨0x3d40, 0xb0, ".cfa: $esp 4 + .ra: .cfa 4 - ^"⟩ 0x3df0
    (by decide) (Or.inr (by decide))
    ⟨0x3df0, 0xb0, ".cfa: $esp 8 + .ra: .cfa 4 - ^"⟩ (by decide)

/-- C7: `load_module` on an unreadable or absent file reports failure and
installs no entry (the store, and hence `has_module`, is unchanged),
while `load_module` on readable content with malformed records succeeds,
installs the module with `corrupt = true`, and the successfully parsed
records remain usable (the well-formed `FUNC` and line record of the bad
file still resolve). -/
theorem c7_load_module :
    (∀ (st : List (String × LoadedModule)) (key : String),
        loadModule st key none = (false, st)
        ∧ hasModule (loadModule st key none).2 key = hasModule st key)
    ∧ (loadModule [] "module3" (some badFileLines)).1 = true
    ∧ hasModule (loadModule [] "module3" (some badFileLines)).2 "module3" = true
    ∧ isModuleCorrupt (loadModule [] "module3" (some badFileLines)).2 "module3"
        = true
    ∧ (fillSourceLineInfo (loadModule [] "module3" (some badFileLines)).2
        { instruction := 0x1005, module := some "module3" } none).1.functionName
        = "GoodFunction"
    ∧ (fillSourceLineInfo (loadModule [] "module3" (some badFileLines)).2
        { instruction := 0x1005, module := some "module3" } none).1.sourceLine
        = 44 := by
  refine ⟨?_, by decide, by decide, by decide, by decide, by decide⟩
  intro st key
  exact ⟨rfl, rfl⟩

/-- C8: the record parsers accept the listed vectors and reject the
listed vectors, and any empty, non-digit, or out-of-range numeric field
fails (the decimal parser rejects empty tokens, any character that is
neither a digit nor the leading sign, and values outside the signed
64-bit range; the hex parser rejects empty tokens, non-hex characters and
values not below `2^64`). -/
theorem c8_parser_vectors :
    (parseFile "FILE 0 file name" = some ⟨0, "file name"⟩
      ∧ parseFunction "FUNC a1 a2 a3 fn" = some ⟨false, 0xa1, 0xa2, 0xa3, "fn"⟩
      ∧ parseFunction "FUNC m a1 a2 a3 fn" = some ⟨true, 0xa1, 0xa2, 0xa3, "fn"⟩
      ∧ parseInlineOrigin "INLINE_ORIGIN 0 -1 fn" = some ⟨true, 0, -1, "fn"⟩
      ∧ parseInline "INLINE 0 1 2 3 4" = some ⟨false, 0, 1, 0, 2, [(3, 4)]⟩
      ∧ parseInline "INLINE 0 1 2 3 a b 1a 1b" =
          some ⟨true, 0, 1, 2, 3, [(0xa, 0xb), (0x1a, 0x1b)]⟩
      ∧ parseFile "FILE 1 " = none
      ∧ parseFile "FILE -2 file name" = none
      ∧ parseFunction "FUNC 1 2 -5 fn" = none
      ∧ parsePublicSymbol "PUBLIC x 1 5 n" = none
      ∧ parseInline "INLINE -1 1 2 3 4" = none
      ∧ parseInline "INLINE 0 1 -2" = none
      ∧ parseInline "INLINE 0 1 -2 3" = none)
    ∧ (∀ tok : String, tok.data = [] →
        parseLong tok = none ∧ parseHex64 tok = none)
    ∧ (∀ tok : String, (∃ c ∈ tok.data, digitVal c = none ∧ c ≠ '-') →
        parseLong tok = none)
    ∧ (∀ tok : String, (∃ c ∈ tok.data, hexDigitVal c = none) →
        parseHex64 tok = none)
    ∧ (∀ (tok : String) (v : Int), parseLong tok = some v →
        -(2 ^ 63 : Int) ≤ v ∧ v < 2 ^ 63)
    ∧ (∀ (tok : String) (v : Nat), parseHex64 tok = some v → v < 2 ^ 64) := by
  refine ⟨by decide, ?_, ?_, ?_, ?_, ?_⟩
  · intro tok h
    constructor
    · unfold parseLong
      rw [h]
      rfl
    · unfold parseHex64
      rw [h]
      rfl
  · intro tok hex
    obtain ⟨c, hc, hcd, hcne⟩ := hex
    unfold parseLong
    cases htd : tok.data with
    | nil => rfl
    | cons d rest =>
        rw [htd] at hc
        simp only [parseLongChars]
        by_cases hd : d = '-'
        · rw [if_pos hd]
          subst hd
          have hcr : c ∈ rest := by
            rcases List.mem_cons.mp hc with rfl | h2
            · exact absurd rfl hcne
            · exact h2
          rw [decValue_eq_none_of_nondigit hcr hcd]
        · rw [if_neg hd]
          rw [decValue_eq_none_of_nondigit hc hcd]
  · intro tok hex
    obtain ⟨c, hc, hcd⟩ := hex
    unfold parseHex64
    rw [hexValue_eq_none_of_nondigit hc hcd]
  · intro tok v hv
    unfold parseLong at hv
    cases htd : tok.data with
    | nil =>
        rw [htd] at hv
        exact Option.noConfusion hv
    | cons d rest =>
        rw [htd] at hv
        simp only [parseLongChars] at hv
        by_cases hd : d = '-'
        · rw [if_pos hd] at hv
          cases hn : decValue rest with
          | none => rw [hn] at hv; exact Option.noConfusion hv
          | some n =>
              rw [hn] at hv
              replace hv : (if (n : Int) ≤ 2 ^ 63 then some (-(n : Int))
                  else none) = some v := hv
              by_cases hb : (n : Int) ≤ 2 ^ 63
              · rw [if_pos hb] at hv
                have : -(n : Int) = v := Option.some.inj hv
                omega
              · rw [if_neg hb] at hv; exact Option.noConfusion hv
        · rw [if_neg hd] at hv
          cases hn : decValue (d :: rest) with
          | none => rw [hn] at hv; exact Option.noConfusion hv
          | some n =>
              rw [hn] at hv
              replace hv : (if (n : Int) < longMax then some (n : Int)
                  else none) = some v := hv
              by_cases hb : (n : Int) < longMax
              · rw [if_pos hb] at hv
                have : (n : Int) = v := Option.some.inj hv
                unfold longMax at hb
                omega
              · rw [if_neg hb] at hv; exact Option.noConfusion hv
  · intro tok v hv
    unfold parseHex64 at hv
    cases hn : hexValue tok.data with
    | none => rw [hn] at hv; exact Option.noConfusion hv
    | some n =>
        rw [hn] at hv
        replace hv : (if n < 2 ^ 64 - 1 then some n else none) = some v := hv
        by_cases hb : n < 2 ^ 64 - 1
        · rw [if_pos hb] at hv
          have : n = v := Option.some.inj hv
          omega
        · rw [if_neg hb] at hv; exact Option.noConfusion hv

/-- C8 witness: the field-level failure clauses applied to concrete
tokens. -/
theorem c8_parser_vectors_witness :
    parseLong "" = none ∧ parseHex64 "" = none
    ∧ parseLong "x1" = none ∧ parseHex64 "1z" = none :=
  ⟨(c8_parser_vectors.2.1 "" rfl).1,
   (c8_parser_vectors.2.1 "" rfl).2,
   c8_parser_vectors.2.2.1 "x1" ⟨'x', by decide, by decide, by decide⟩,
   c8_parser_vectors.2.2.2.1 "1z" ⟨'z', by decide, by decide⟩⟩

/-- C9: a resolved inline chain is ordered innermost-first — with
increasing index the nest levels strictly decrease, the frame at the last
index is the level-0 inline, and the frame at index 0 carries the
greatest nest level of the chain. -/
theorem c9_inline_chain_order (f : FunctionRecord) (a : Nat) :
    (∀ i j (hi : i < (inlineChain f a).length)
        (hj : j < (inlineChain f a).length), i < j →
        (inlineChain f a)[j].nestLevel < (inlineChain f a)[i].nestLevel)
    ∧ ∀ (hne : inlineChain f a ≠ []),
        ((inlineChain f a).getLast hne).nestLevel = 0
        ∧ ∀ x ∈ inlineChain f a,
            x.nestLevel ≤ ((inlineChain f a).head hne).nestLevel := by
  have hchar := inlineChain_level f a
  constructor
  · intro i j hi hj hij
    rw [hchar j hj, hchar i hi]
    omega
  · intro hne
    have hlen : 0 < (inlineChain f a).length := List.length_pos.mpr hne
    constructor
    · rw [List.getLast_eq_getElem, hchar _ (by omega)]
      omega
    · intro x hx
      rw [List.head_eq_getElem, hchar 0 (by omega)]
      obtain ⟨n, hn, hnx⟩ := List.mem_iff_getElem.mp hx
      rw [← hnx, hchar n hn]
      omega

/-- C9 witness: the ordering applied to the three-element chain of the
`linux_inline` module at `0x161b6`. -/
theorem c9_inline_chain_order_witness :
    ((inlineChain linuxMainNew 0x161b6).get ⟨1, by decide⟩).nestLevel <
      ((inlineChain linuxMainNew 0x161b6).get ⟨0, by decide⟩).nestLevel
    ∧ ((inlineChain linuxMainNew 0x161b6).getLast (by decide)).nestLevel = 0 :=
  ⟨(c9_inline_chain_order linuxMainNew 0x161b6).1 0 1 (by decide) (by decide)
      (by decide),
   ((c9_inline_chain_order linuxMainNew 0x161b6).2 (by decide)).1⟩

/-- C10: a frame whose module is null, or whose module is not loaded in
the resolver, is left completely unchanged by `fill_source_line_info`
(so its name and file stay empty, its bases and line stay 0, its multiple
flag stays false) and no inline frames are appended. -/
theorem c10_unresolved_frame_untouched (st : List (String × LoadedModule))
    (frame : StackFrame) (inls : Option (List StackFrame))
    (h : frame.module = none ∨
      ∃ k, frame.module = some k ∧ storeLookup st k = none) :
    fillSourceLineInfo st frame inls = (frame, inls) := by
  unfold fillSourceLineInfo
  rcases h with h | ⟨k, hk, hl⟩
  · rw [h]
  · rw [hk]
    show (match storeLookup st k with
        | none => (frame, inls)
        | some lm => lookupAddress lm.module frame inls) = (frame, inls)
    rw [hl]

/-- C10 witness: an untouched frame on the empty store. -/
theorem c10_unresolved_frame_witness :
    fillSourceLineInfo [] { instruction := 0x1000 } (some []) =
      ({ instruction := 0x1000 }, some []) :=
  c10_unresolved_frame_untouched [] { instruction := 0x1000 } (some [])
    (Or.inl rfl)

end Breakpad
